import Mathlib

/-!
Shallow embedding of the RustECS entity-component-system runtime
(src/world.rs, src/storage.rs, src/query.rs, src/system.rs).

Modelling conventions:
* `std::any::TypeId` is abstracted as a natural number (`TypeId`); distinct
  Rust types correspond to distinct numbers.
* A `Box<dyn Component>` is a `CompVal`: the box knows the dynamic type of the
  payload (`tid`, what `Any::type_id` reports) and the payload bytes, which we
  abstract as a natural number (`data`).
* Rust `panic!` / `unwrap` failures abort the process; fallible operations are
  embedded in `Except Panic`, where each `Panic` constructor corresponds to one
  panic site of the source.  The source has no `Result` return anywhere, so an
  `Except.error` always models an abort, never a recoverable error value.
* `world.rs` calls the column membership test `storage.has_component`, while
  `storage.rs` declares it as `ComponentStorage::has` with the identical
  signature; the two names denote the same method here.
* A registered system is modelled by its run-time type key together with its
  observable effect on the component/entity part of the world (`WorldData`).
  Rust systems receive the whole `World`, but during a tick the controller slot
  is `None`, so any system that touches the system registry hits `unwrap` on
  `None` and aborts the tick; an effect on `WorldData` is all a system of a
  completed tick can have.
-/

namespace RustECS

/-- Run-time type identifier (`std::any::TypeId`), abstracted as a natural
number. -/
abbrev TypeId := Nat

/-- Entity handle (`pub type Entity = usize` in world.rs). -/
abbrev Entity := Nat

/-- A type-erased component value (`Box<dyn Component>`): the dynamic type id
of the payload and the payload itself, abstracted as a natural number. -/
structure CompVal where
  tid : TypeId
  data : Nat
deriving DecidableEq

/-- The abort sites of the source: each constructor corresponds to one
`panic!` or `unwrap` call. -/
inductive Panic where
  /-- world.rs `init_storage`: panic "Error: Storage already exists". -/
  | storageExists
  /-- world.rs `get_component` / `get_component_mut` / `set_component`:
  panic "Error: Storage does not exist". -/
  | storageMissing
  /-- storage.rs `get` / `get_mut`: panic "Component type mismatch". -/
  | typeMismatch
  /-- storage.rs: `self.components[index]` with `index >= length` panics
  (Rust slice index out of bounds). -/
  | outOfRange
  /-- system.rs `add_system`: panic "System already exists". -/
  | systemExists
  /-- system.rs `remove_system`: panic "System does not exist". -/
  | systemMissing
  /-- world.rs `update` / `add_system` / `remove_system`: `unwrap` on a `None`
  `systems_controller`. -/
  | controllerMissing
deriving DecidableEq

/-- One column (`ComponentStorage` in storage.rs): an optional slot per
entity, plus the declared type id of the column. -/
structure ComponentStorage where
  components : List (Option CompVal)
  type_id : TypeId
deriving DecidableEq

/-- `ComponentStorage::new`: empty column; `type_id` starts as
`TypeId::of::<()>`, which we fix to be the number 0 (the unit type is not a
`Component`, so no component type id collides with it observably: every column
the `World` creates overwrites it via `set_type_id` at once). -/
def ComponentStorage.new : ComponentStorage :=
  { components := [], type_id := 0 }

/-- `ComponentStorage::init`: append one absent slot. -/
def ComponentStorage.init (s : ComponentStorage) : ComponentStorage :=
  { s with components := s.components ++ [none] }

/-- `ComponentStorage::set_type_id`. -/
def ComponentStorage.set_type_id (s : ComponentStorage) (tid : TypeId) :
    ComponentStorage :=
  { s with type_id := tid }

/-- `ComponentStorage::check_type_id`. -/
def ComponentStorage.check_type_id (s : ComponentStorage) (tid : TypeId) :
    Bool :=
  s.type_id == tid

/-- `ComponentStorage::get::<T>` (`tid` is `TypeId::of::<T>`): index the slot
(panicking when out of range), return the payload when present, `none` when
absent, and panic "Component type mismatch" when the dynamic type of the
stored value differs from the requested one.  `get_mut` has the identical
read behaviour. -/
def ComponentStorage.get (s : ComponentStorage) (index : Entity)
    (tid : TypeId) : Except Panic (Option Nat) :=
  if h : index < s.components.length then
    match s.components.get ⟨index, h⟩ with
    | some c => if c.tid == tid then .ok (some c.data) else .error .typeMismatch
    | none => .ok none
  else
    .error .outOfRange

/-- `ComponentStorage::set`: overwrite the slot at `index` (Rust panics when
`index >= length`). -/
def ComponentStorage.set (s : ComponentStorage) (index : Entity)
    (c : CompVal) : Except Panic ComponentStorage :=
  if index < s.components.length then
    .ok { s with components := s.components.set index (some c) }
  else
    .error .outOfRange

/-- `ComponentStorage::has` (called `has_component` from world.rs): true iff
the slot is present and the dynamic type id of the stored value equals the
requested one. -/
def ComponentStorage.has (s : ComponentStorage) (index : Entity)
    (tid : TypeId) : Except Panic Bool :=
  if h : index < s.components.length then
    match s.components.get ⟨index, h⟩ with
    | some c => .ok (c.tid == tid)
    | none => .ok false
  else
    .error .outOfRange

/-- The component/entity part of the `World` (everything a system of a
completed tick can act on). -/
structure WorldData where
  storage : List ComponentStorage
  entity_counter : Nat
deriving DecidableEq

/-- A registered system: its run-time type key and the observable effect of
its `update` body on the component/entity state.  `run` returning
`Except.error` models the system panicking, which aborts the whole tick. -/
structure Sys where
  tid : TypeId
  run : WorldData → Except Panic WorldData

/-- `SystemController` (system.rs): the ordered list of registered systems. -/
structure SystemController where
  systems : List Sys

/-- `SystemController::has_system::<T>`. -/
def SystemController.has_system (c : SystemController) (tid : TypeId) : Bool :=
  c.systems.any (fun s => s.tid == tid)

/-- `SystemController::add_system`: panic "System already exists" on a
duplicate type key, otherwise append. -/
def SystemController.add_system (c : SystemController) (s : Sys) :
    Except Panic SystemController :=
  if c.has_system s.tid then .error .systemExists
  else .ok { systems := c.systems ++ [s] }

/-- `SystemController::remove_system::<T>`: panic "System does not exist" when
unregistered, otherwise retain every system of a different type key. -/
def SystemController.remove_system (c : SystemController) (tid : TypeId) :
    Except Panic SystemController :=
  if !c.has_system tid then .error .systemMissing
  else .ok { systems := c.systems.filter (fun s => s.tid != tid) }

/-- Run the listed systems in sequence over the data part of the world.  In
the source every spawned task serialises on the single world-wide mutex, so
one total order of system bodies is executed per tick; the order is the lock
acquisition order, which is nondeterministic — we fix registration order here.
A failing system makes the barrier join panic, aborting the tick. -/
def runSystems : List Sys → WorldData → Except Panic WorldData
  | [], d => .ok d
  | s :: rest, d => do runSystems rest (← s.run d)

/-- `SystemController::update`: one fork/join tick over the given world
state. -/
def SystemController.update (c : SystemController) (d : WorldData) :
    Except Panic WorldData :=
  runSystems c.systems d

/-- The `World` (world.rs): all columns, the entity counter, and — while no
tick is running — the scheduler. -/
structure World extends WorldData where
  systems_controller : Option SystemController

/-- `World::new`. -/
def World.new : World :=
  { storage := [], entity_counter := 0,
    systems_controller := some { systems := [] } }

/-- `World::create_entity`: append one absent slot to every existing column,
return the current counter as the new handle and increment the counter. -/
def World.create_entity (w : World) : Entity × World :=
  (w.entity_counter,
    { w with storage := w.storage.map ComponentStorage.init,
             entity_counter := w.entity_counter + 1 })

/-- `World::check_storage_exists::<T>`. -/
def World.check_storage_exists (w : World) (tid : TypeId) : Bool :=
  w.storage.any (fun s => s.check_type_id tid)

/-- `World::init_storage::<T>`: panic "Error: Storage already exists" on a
duplicate column, otherwise push a fresh column of type id `tid` backfilled
with `entity_counter` absent slots. -/
def World.init_storage (w : World) (tid : TypeId) : Except Panic World :=
  if w.check_storage_exists tid then .error .storageExists
  else
    .ok { w with storage :=
      w.storage ++
        [(List.range w.entity_counter).foldl (fun s _ => s.init)
          (ComponentStorage.new.set_type_id tid)] }

/-- The loop body of `World::set_component`: overwrite the slot at `e` in the
first column whose type id matches, leaving later columns untouched (the Rust
loop returns right after the first match). -/
def setFirst : List ComponentStorage → TypeId → Entity → Nat →
    Except Panic (List ComponentStorage)
  | [], _, _, _ => .ok []
  | s :: rest, tid, e, d =>
    if s.check_type_id tid then do
      let s' ← s.set e ⟨tid, d⟩
      .ok (s' :: rest)
    else do
      let rest' ← setFirst rest tid e d
      .ok (s :: rest')

/-- `World::set_component::<T>`: panic "Error: Storage does not exist" when no
column matches, otherwise set the value in the first matching column. -/
def World.set_component (w : World) (e : Entity) (tid : TypeId) (d : Nat) :
    Except Panic World :=
  if !w.check_storage_exists tid then .error .storageMissing
  else do
    let st ← setFirst w.storage tid e d
    .ok { w with storage := st }

/-- `World::add_component::<T>`: set the component when its column exists,
otherwise lazily create the column first. -/
def World.add_component (w : World) (e : Entity) (tid : TypeId) (d : Nat) :
    Except Panic World :=
  if w.check_storage_exists tid then w.set_component e tid d
  else do
    let w' ← w.init_storage tid
    w'.set_component e tid d

/-- `World::create_entity_with_components`: create an entity, then attach
each given component value to it in sequence. -/
def World.create_entity_with_components (w : World) (tid : TypeId)
    (ds : List Nat) : Except Panic (Entity × World) := do
  let p := w.create_entity
  let w' ← ds.foldlM (fun wa d => wa.add_component p.1 tid d) p.2
  .ok (p.1, w')

/-- `ComponentStorage::get_mut::<T>`: the read/discrimination behaviour is
identical to `ComponentStorage::get` (the only difference in Rust is the
mutability of the returned reference). -/
def ComponentStorage.get_mut (s : ComponentStorage) (index : Entity)
    (tid : TypeId) : Except Panic (Option Nat) :=
  if h : index < s.components.length then
    match s.components.get ⟨index, h⟩ with
    | some c => if c.tid == tid then .ok (some c.data) else .error .typeMismatch
    | none => .ok none
  else
    .error .outOfRange

/-- The loop body of `World::get_component`: read from the first column whose
type id matches; the trailing `None` of world.rs line 125 is returned when no
column matches. -/
def getFirst : List ComponentStorage → TypeId → Entity →
    Except Panic (Option Nat)
  | [], _, _ => .ok none
  | s :: rest, tid, e =>
    if s.check_type_id tid then s.get e tid
    else getFirst rest tid e

/-- `World::get_component::<T>`: panic "Error: Storage does not exist" when no
column is registered for the type, otherwise read the slot of the first
matching column.  `World::get_component_mut` has the identical read
behaviour. -/
def World.get_component (w : World) (tid : TypeId) (e : Entity) :
    Except Panic (Option Nat) :=
  if !w.check_storage_exists tid then .error .storageMissing
  else getFirst w.storage tid e

/-- The loop body of `World::get_component_mut`, reading from the first
column whose type id matches via `get_mut`. -/
def getMutFirst : List ComponentStorage → TypeId → Entity →
    Except Panic (Option Nat)
  | [], _, _ => .ok none
  | s :: rest, tid, e =>
    if s.check_type_id tid then s.get_mut e tid
    else getMutFirst rest tid e

/-- `World::get_component_mut::<T>`: panic "Error: Storage does not exist"
when no column is registered for the type, otherwise read the slot of the
first matching column mutably. -/
def World.get_component_mut (w : World) (tid : TypeId) (e : Entity) :
    Except Panic (Option Nat) :=
  if !w.check_storage_exists tid then .error .storageMissing
  else getMutFirst w.storage tid e

/-- Helper for `World.write_component_mut`: in the first column whose type id
matches, when `get_mut` returns a present payload the caller overwrites the
slot through the returned reference (writing through `&mut T` keeps the
dynamic type `T`); when it returns `None` there is nothing to write
through. -/
def mutFirst : List ComponentStorage → TypeId → Entity → Nat →
    Except Panic (List ComponentStorage)
  | [], _, _, _ => .ok []
  | s :: rest, tid, e, d =>
    if s.check_type_id tid then do
      match (← s.get_mut e tid) with
      | some _ =>
          .ok ({ s with components := s.components.set e (some ⟨tid, d⟩) } :: rest)
      | none => .ok (s :: rest)
    else do
      let rest' ← mutFirst rest tid e d
      .ok (s :: rest')

/-- The observable world mutation a caller can perform with the reference
returned by `World::get_component_mut` (not itself a source function: it is
`get_component_mut` followed by the caller assigning a new payload of the
same type through the returned `&mut T`).  It is included so that the
reachable-state relation covers every mutation the public API exposes. -/
def World.write_component_mut (w : World) (e : Entity) (tid : TypeId)
    (d : Nat) : Except Panic World :=
  if !w.check_storage_exists tid then .error .storageMissing
  else do
    let st ← mutFirst w.storage tid e d
    .ok { w with storage := st }

/-- The loop body of `World::has_component`: true as soon as one column
reports the component, false after the loop otherwise. -/
def hasFirst : List ComponentStorage → Entity → TypeId → Except Panic Bool
  | [], _, _ => .ok false
  | s :: rest, e, tid => do
    if (← s.has e tid) then .ok true else hasFirst rest e tid

/-- `World::has_component`. -/
def World.has_component (w : World) (e : Entity) (tid : TypeId) :
    Except Panic Bool :=
  hasFirst w.storage e tid

/-- `World::get_entity_count`. -/
def World.get_entity_count (w : World) : Nat :=
  w.entity_counter

/-- `World::add_system`: `unwrap` the controller (panicking when a tick holds
it) and delegate. -/
def World.add_system (w : World) (s : Sys) : Except Panic World :=
  match w.systems_controller with
  | none => .error .controllerMissing
  | some c => do
    let c' ← c.add_system s
    .ok { w with systems_controller := some c' }

/-- `World::remove_system::<T>`. -/
def World.remove_system (w : World) (tid : TypeId) : Except Panic World :=
  match w.systems_controller with
  | none => .error .controllerMissing
  | some c => do
    let c' ← c.remove_system tid
    .ok { w with systems_controller := some c' }

/-- `World::update`: take the controller out of the world (leaving `None`),
run one tick, and restore the very same controller afterwards. -/
def World.update (w : World) : Except Panic World :=
  match w.systems_controller with
  | none => .error .controllerMissing
  | some c => do
    let d ← c.update w.toWorldData
    .ok { toWorldData := d, systems_controller := some c }

/-- A `Query` (query.rs): the required type keys in the order they were
added, and the transient entity list. -/
structure Query where
  components : List TypeId
  entities : List Entity

/-- `Query::new`. -/
def Query.new : Query :=
  { components := [], entities := [] }

/-- `Query::add::<T>`. -/
def Query.add (q : Query) (tid : TypeId) : Query :=
  { q with components := q.components ++ [tid] }

/-- The inner loop of `Query::get`: test one entity against the required type
keys in list order, stopping at the first miss (the `has_components = false;
break` of query.rs). -/
def checkAll (w : World) (e : Entity) : List TypeId → Except Panic Bool
  | [] => .ok true
  | tid :: rest => do
    if (← w.has_component e tid) then checkAll w e rest else .ok false

/-- The outer loop of `Query::get`: scan the given entity handles in order,
accumulating those that carry every required component. -/
def queryEntities (w : World) (tids : List TypeId) :
    List Entity → Except Panic (List Entity)
  | [] => .ok []
  | e :: rest => do
    let b ← checkAll w e tids
    let others ← queryEntities w tids rest
    .ok (if b then e :: others else others)

/-- `Query::get`: scan entity handles `0..entity_counter` in ascending order
and return the matching ones. -/
def Query.get (q : Query) (w : World) : Except Panic (List Entity) :=
  queryEntities w q.components (List.range w.get_entity_count)

/-- Iterate `World::create_entity` starting from `World::new`: the world
after `n` successive entity creations. -/
def createN : Nat → World
  | 0 => World.new
  | n + 1 => ((createN n).create_entity).2

/-- The handles returned by `n` successive `create_entity` calls on a fresh
world, in call order. -/
def createHandles : Nat → List Entity
  | 0 => []
  | n + 1 => createHandles n ++ [((createN n).create_entity).1]

/-! ### Derived characterizations and invariants -/

/-- Pure membership test of one column: the slot at `e` is present and its
dynamic type id matches (agrees with `ComponentStorage.has` on in-range
indices, see `has_eq_pure`). -/
def ComponentStorage.hasPure (s : ComponentStorage) (e : Entity)
    (tid : TypeId) : Bool :=
  match s.components.getD e none with
  | some c => c.tid == tid
  | none => false

/-- Pure form of `World::has_component` (agrees with it on valid handles, see
`has_component_eq_pure`). -/
def World.hasComponentPure (w : World) (e : Entity) (tid : TypeId) : Bool :=
  w.storage.any (fun s => s.hasPure e tid)

/-- The column-lockstep invariant on the data part of a world: every column
has exactly one slot per existing entity. -/
def WfData (d : WorldData) : Prop :=
  ∀ s ∈ d.storage, s.components.length = d.entity_counter

/-- The column-lockstep invariant of a `World`. -/
def Wf (w : World) : Prop :=
  WfData w.toWorldData

/-- The worlds reachable from `World::new` through the public API.  Each
constructor is one public operation, taken when it returns normally (a
panicking operation aborts the process, so it produces no further state).
For `update`, the registered systems are arbitrary `WorldData`
transformations; in Rust a system can reach the world only through the same
public methods (all fields of `World` are private), so every real system
preserves the column-lockstep invariant — the `update` constructor records
exactly that about the systems it dispatches. -/
inductive Reachable : World → Prop
  | new : Reachable World.new
  | create_entity {w : World} : Reachable w → Reachable (w.create_entity).2
  | create_entity_with_components {w : World} {tid : TypeId} {ds : List Nat}
      {e : Entity} {w' : World} : Reachable w →
      w.create_entity_with_components tid ds = .ok (e, w') → Reachable w'
  | add_component {w : World} {e : Entity} {tid : TypeId} {d : Nat}
      {w' : World} : Reachable w →
      w.add_component e tid d = .ok w' → Reachable w'
  | set_component {w : World} {e : Entity} {tid : TypeId} {d : Nat}
      {w' : World} : Reachable w →
      w.set_component e tid d = .ok w' → Reachable w'
  | init_storage {w : World} {tid : TypeId} {w' : World} : Reachable w →
      w.init_storage tid = .ok w' → Reachable w'
  | write_component_mut {w : World} {e : Entity} {tid : TypeId} {d : Nat}
      {w' : World} : Reachable w →
      w.write_component_mut e tid d = .ok w' → Reachable w'
  | add_system {w : World} {s : Sys} {w' : World} : Reachable w →
      w.add_system s = .ok w' → Reachable w'
  | remove_system {w : World} {tid : TypeId} {w' : World} : Reachable w →
      w.remove_system tid = .ok w' → Reachable w'
  | update {w w' : World} : Reachable w →
      (∀ c, w.systems_controller = some c → ∀ s ∈ c.systems,
        ∀ d d', WfData d → s.run d = .ok d' → WfData d') →
      w.update = .ok w' → Reachable w'

/-- Deciding the lockstep invariant on concrete worlds. -/
instance : DecidablePred WfData := fun d =>
  decidable_of_iff (∀ s ∈ d.storage, s.components.length = d.entity_counter)
    Iff.rfl

instance : DecidablePred Wf := fun w =>
  decidable_of_iff (WfData w.toWorldData) Iff.rfl

/-- Concrete world used by witnesses: one entity, no columns. -/
def wA : World := (World.new.create_entity).2

/-- Concrete world used by witnesses: zero entities, one empty column of type
id 3 (the state right after `init_storage::<C>` on a fresh world). -/
def w03 : World :=
  { storage := [{ components := [], type_id := 3 }], entity_counter := 0,
    systems_controller := some { systems := [] } }

/-- Concrete world used by witnesses: one entity, one column of type id 3
with an absent slot. -/
def wC : World :=
  { storage := [{ components := [none], type_id := 3 }], entity_counter := 1,
    systems_controller := some { systems := [] } }

/-- Concrete world used by witnesses: one entity carrying payload 5 of type
id 3. -/
def wB : World :=
  { storage := [{ components := [some { tid := 3, data := 5 }], type_id := 3 }],
    entity_counter := 1, systems_controller := some { systems := [] } }

/-- A do-nothing system with type key 5, used by the tick witnesses. -/
def sysNoop : Sys :=
  { tid := 5, run := fun d => .ok d }

/-- Concrete world used by witnesses: empty world with `sysNoop`
registered. -/
def wS : World :=
  { storage := [], entity_counter := 0,
    systems_controller := some { systems := [sysNoop] } }

theorem wf_storage {w : World} (hw : Wf w) {s : ComponentStorage}
    (hs : s ∈ w.storage) : s.components.length = w.entity_counter :=
  hw s hs

/-! Small inversion lemmas for the `Except` monad. -/

@[simp]
theorem ok_bind {α β : Type} (a : α) (f : α → Except Panic β) :
    (Except.ok a >>= f) = f a := rfl

@[simp]
theorem error_bind {α β : Type} (p : Panic) (f : α → Except Panic β) :
    ((Except.error p : Except Panic α) >>= f) = Except.error p := rfl

theorem bind_eq_ok {α β : Type} {x : Except Panic α} {f : α → Except Panic β}
    {b : β} : (x >>= f) = .ok b ↔ ∃ a, x = .ok a ∧ f a = .ok b := by
  cases x <;> simp

/-! Column-level lemmas. -/

@[simp]
theorem init_components (s : ComponentStorage) :
    s.init.components = s.components ++ [none] := rfl

@[simp]
theorem init_type_id (s : ComponentStorage) : s.init.type_id = s.type_id := rfl

@[simp]
theorem init_length (s : ComponentStorage) :
    s.init.components.length = s.components.length + 1 := by
  simp [ComponentStorage.init]

theorem set_eq_ok {s : ComponentStorage} {e : Entity} {c : CompVal}
    (h : e < s.components.length) :
    s.set e c = .ok { s with components := s.components.set e (some c) } := by
  simp [ComponentStorage.set, h]

theorem set_shape {s s' : ComponentStorage} {e : Entity} {c : CompVal}
    (h : s.set e c = .ok s') :
    s' = { s with components := s.components.set e (some c) } ∧
      s'.components.length = s.components.length ∧ s'.type_id = s.type_id := by
  unfold ComponentStorage.set at h
  split at h
  · cases h
    simp
  · cases h

theorem foldl_init (l : List Nat) (s : ComponentStorage) :
    l.foldl (fun a _ => ComponentStorage.init a) s =
      { s with components := s.components ++ List.replicate l.length none } := by
  induction l generalizing s with
  | nil => simp
  | cons x xs ih =>
      rw [List.foldl_cons, ih]
      simp [ComponentStorage.init, List.replicate_succ]

theorem init_storage_eq {w : World} {tid : TypeId}
    (h : w.check_storage_exists tid = false) :
    w.init_storage tid =
      .ok { w with storage := w.storage ++
        [{ components := List.replicate w.entity_counter none,
           type_id := tid }] } := by
  simp [World.init_storage, h, foldl_init, ComponentStorage.new,
    ComponentStorage.set_type_id]

@[simp]
theorem create_entity_fst (w : World) : (w.create_entity).1 = w.entity_counter :=
  rfl

@[simp]
theorem create_entity_counter (w : World) :
    (w.create_entity).2.entity_counter = w.entity_counter + 1 := rfl

@[simp]
theorem create_entity_storage (w : World) :
    (w.create_entity).2.storage = w.storage.map ComponentStorage.init := rfl

@[simp]
theorem create_entity_controller (w : World) :
    (w.create_entity).2.systems_controller = w.systems_controller := rfl

theorem create_entity_wf {w : World} (hw : Wf w) : Wf (w.create_entity).2 := by
  intro s hs
  simp only [create_entity_storage, List.mem_map] at hs
  obtain ⟨a, ha, rfl⟩ := hs
  simp [hw a ha]

theorem init_storage_wf {w w' : World} (hw : Wf w)
    (h : w.init_storage tid = .ok w') : Wf w' := by
  unfold World.init_storage at h
  split at h
  · cases h
  · cases h
    intro s hs
    rcases List.mem_append.1 hs with hs | hs
    · exact hw s hs
    · rcases List.mem_singleton.1 hs with rfl
      simp [foldl_init, ComponentStorage.new, ComponentStorage.set_type_id]

/-! Lemmas about the `set_component` loop. -/

theorem setFirst_maps {tid : TypeId} {e : Entity} {d : Nat} :
    ∀ {l l' : List ComponentStorage}, setFirst l tid e d = .ok l' →
      l'.map ComponentStorage.type_id = l.map ComponentStorage.type_id ∧
        l'.map (fun s => s.components.length) =
          l.map (fun s => s.components.length)
  | [], l', h => by
      simp only [setFirst, Except.ok.injEq] at h
      subst h
      exact ⟨rfl, rfl⟩
  | s :: rest, l', h => by
      simp only [setFirst] at h
      split at h
      · rcases bind_eq_ok.1 h with ⟨s1, hs1, hout⟩
        have := Except.ok.inj hout
        subst this
        obtain ⟨-, hlen, htid⟩ := set_shape hs1
        simp [htid, hlen]
      · rcases bind_eq_ok.1 h with ⟨r1, hr1, hout⟩
        have := Except.ok.inj hout
        subst this
        obtain ⟨h1, h2⟩ := setFirst_maps hr1
        simp [h1, h2]

theorem setFirst_ok {tid : TypeId} {e : Entity} {d : Nat} :
    ∀ {l : List ComponentStorage}, (∀ s ∈ l, e < s.components.length) →
      ∃ l', setFirst l tid e d = .ok l'
  | [], _ => ⟨[], rfl⟩
  | s :: rest, hb => by
      simp only [setFirst]
      split
      · rw [set_eq_ok (hb s (List.mem_cons_self _ _))]
        exact ⟨_, rfl⟩
      · obtain ⟨r, hr⟩ := setFirst_ok (fun a ha => hb a (List.mem_cons_of_mem _ ha))
        rw [hr]
        exact ⟨s :: r, rfl⟩

theorem getFirst_setFirst {tid : TypeId} {e : Entity} {d : Nat} :
    ∀ {l l' : List ComponentStorage}, (∀ s ∈ l, e < s.components.length) →
      l.any (fun s => s.check_type_id tid) = true →
      setFirst l tid e d = .ok l' → getFirst l' tid e = .ok (some d)
  | [], _, _, hany, _ => by simp at hany
  | s :: rest, l', hb, hany, h => by
      simp only [setFirst] at h
      by_cases hc : s.check_type_id tid
      · rw [if_pos hc, set_eq_ok (hb s (List.mem_cons_self _ _))] at h
        simp only [ok_bind] at h
        have := Except.ok.inj h
        subst this
        have he : e < s.components.length := hb s (List.mem_cons_self _ _)
        have hc2 : (s.type_id == tid) = true := hc
        simp [getFirst, ComponentStorage.check_type_id, ComponentStorage.get,
          he, hc2]
      · rw [if_neg hc] at h
        rcases bind_eq_ok.1 h with ⟨r, hr, hout⟩
        have := Except.ok.inj hout
        subst this
        have hany' : rest.any (fun s => s.check_type_id tid) = true := by
          simpa [hc] using hany
        simp only [getFirst]
        rw [if_neg hc]
        exact getFirst_setFirst
          (fun a ha => hb a (List.mem_cons_of_mem _ ha)) hany' hr

/-! Transport of the invariant and of column registration along storage-list
transformations. -/

theorem length_of_maps {l l' : List ComponentStorage} {n : Nat}
    (hmap : l'.map (fun s => s.components.length) =
      l.map (fun s => s.components.length))
    (h : ∀ s ∈ l, s.components.length = n) :
    ∀ s ∈ l', s.components.length = n := by
  intro s hs
  have hm : s.components.length ∈ l'.map (fun s => s.components.length) :=
    List.mem_map_of_mem _ hs
  rw [hmap] at hm
  rcases List.mem_map.1 hm with ⟨a, ha, hv⟩
  rw [← hv]
  exact h a ha

theorem any_check_of_type_ids {l l' : List ComponentStorage}
    (h : l'.map ComponentStorage.type_id = l.map ComponentStorage.type_id)
    (tid : TypeId) :
    l'.any (fun s => s.check_type_id tid) = l.any (fun s => s.check_type_id tid) := by
  have key : ∀ m : List ComponentStorage,
      m.any (fun s => s.check_type_id tid) =
        (m.map ComponentStorage.type_id).any (fun t => t == tid) := by
    intro m
    induction m with
    | nil => rfl
    | cons a t ih =>
        simp only [ComponentStorage.check_type_id] at ih
        simp [ComponentStorage.check_type_id, ih]
  rw [key, key, h]

/-! Lemmas about `World::set_component` and `World::add_component`. -/

theorem set_component_missing {w : World} {e : Entity} {tid : TypeId} {d : Nat}
    (h : w.check_storage_exists tid = false) :
    w.set_component e tid d = .error .storageMissing := by
  simp [World.set_component, h]

theorem get_component_missing {w : World} {tid : TypeId} {e : Entity}
    (h : w.check_storage_exists tid = false) :
    w.get_component tid e = .error .storageMissing := by
  simp [World.get_component, h]

theorem get_component_mut_missing {w : World} {tid : TypeId} {e : Entity}
    (h : w.check_storage_exists tid = false) :
    w.get_component_mut tid e = .error .storageMissing := by
  simp [World.get_component_mut, h]

theorem init_storage_dup {w : World} {tid : TypeId}
    (h : w.check_storage_exists tid = true) :
    w.init_storage tid = .error .storageExists := by
  simp [World.init_storage, h]

theorem set_component_eq {w : World} {e : Entity} {tid : TypeId} {d : Nat}
    {st : List ComponentStorage} (hex : w.check_storage_exists tid = true)
    (hst : setFirst w.storage tid e d = .ok st) :
    w.set_component e tid d = .ok { w with storage := st } := by
  simp only [World.set_component, hex, Bool.not_true, Bool.false_eq_true,
    if_false, hst, ok_bind]

theorem set_component_shape {w w' : World} {e : Entity} {tid : TypeId}
    {d : Nat} (h : w.set_component e tid d = .ok w') :
    w'.entity_counter = w.entity_counter ∧
      w'.systems_controller = w.systems_controller ∧
      setFirst w.storage tid e d = .ok w'.storage := by
  unfold World.set_component at h
  split at h
  · cases h
  · rcases bind_eq_ok.1 h with ⟨st, hst, hout⟩
    cases Except.ok.inj hout
    exact ⟨rfl, rfl, hst⟩

theorem set_component_wf {w w' : World} {e : Entity} {tid : TypeId} {d : Nat}
    (hw : Wf w) (h : w.set_component e tid d = .ok w') : Wf w' := by
  obtain ⟨hcnt, -, hst⟩ := set_component_shape h
  intro s hs
  rw [hcnt]
  exact length_of_maps (setFirst_maps hst).2 hw s hs

theorem set_component_check {w w' : World} {e : Entity} {tid tid' : TypeId}
    {d : Nat} (h : w.set_component e tid d = .ok w') :
    w'.check_storage_exists tid' = w.check_storage_exists tid' := by
  obtain ⟨-, -, hst⟩ := set_component_shape h
  exact any_check_of_type_ids (setFirst_maps hst).1 tid'

theorem add_component_ok {w : World} {e : Entity} {tid : TypeId} {d : Nat}
    (hw : Wf w) (he : e < w.entity_counter) :
    ∃ w', w.add_component e tid d = .ok w' ∧ Wf w' ∧
      w'.entity_counter = w.entity_counter ∧
      w'.systems_controller = w.systems_controller ∧
      w'.get_component tid e = .ok (some d) := by
  by_cases hex : w.check_storage_exists tid
  · have hb : ∀ s ∈ w.storage, e < s.components.length := by
      intro s hs
      rw [hw s hs]
      exact he
    obtain ⟨st, hst⟩ := @setFirst_ok tid e d w.storage hb
    have hset := set_component_eq hex hst
    refine ⟨{ w with storage := st }, ?_, ?_, rfl, rfl, ?_⟩
    · simpa [World.add_component, hex] using hset
    · exact set_component_wf hw hset
    · have hchk : World.check_storage_exists { w with storage := st } tid = true := by
        show st.any (fun s => s.check_type_id tid) = true
        rw [any_check_of_type_ids (setFirst_maps hst).1 tid]
        exact hex
      have hget := getFirst_setFirst hb hex hst
      simp [World.get_component, hchk, hget]
  · have hex' : w.check_storage_exists tid = false := by
      simpa using hex
    have hinit := init_storage_eq hex'
    set col : ComponentStorage :=
      { components := List.replicate w.entity_counter none, type_id := tid }
      with hcol
    set w1 : World := { w with storage := w.storage ++ [col] } with hw1
    have hb1 : ∀ s ∈ w1.storage, e < s.components.length := by
      intro s hs
      rcases List.mem_append.1 hs with hs | hs
      · rw [hw s hs]; exact he
      · rcases List.mem_singleton.1 hs with rfl
        simpa [hcol] using he
    have hex1 : w1.check_storage_exists tid = true := by
      simp [World.check_storage_exists, hw1, hcol,
        ComponentStorage.check_type_id]
    obtain ⟨st, hst⟩ := @setFirst_ok tid e d w1.storage hb1
    have hset := set_component_eq hex1 hst
    have hwf1 : Wf w1 := init_storage_wf hw hinit
    refine ⟨{ w1 with storage := st }, ?_, ?_, rfl, rfl, ?_⟩
    · unfold World.add_component
      rw [if_neg hex, hinit]
      simpa using hset
    · exact set_component_wf hwf1 hset
    · have hchk : World.check_storage_exists { w1 with storage := st } tid = true := by
        show st.any (fun s => s.check_type_id tid) = true
        rw [any_check_of_type_ids (setFirst_maps hst).1 tid]
        exact hex1
      have hget := getFirst_setFirst hb1 hex1 hst
      simp [World.get_component, hchk, hget]

theorem add_component_wf {w w' : World} {e : Entity} {tid : TypeId} {d : Nat}
    (hw : Wf w) (h : w.add_component e tid d = .ok w') : Wf w' := by
  unfold World.add_component at h
  split at h
  · exact set_component_wf hw h
  · rcases bind_eq_ok.1 h with ⟨w1, hinit, hset⟩
    exact set_component_wf (init_storage_wf hw hinit) hset

/-! Reading from the first matching column. -/

theorem getFirst_find? {tid : TypeId} {e : Entity} :
    ∀ {l : List ComponentStorage} {s : ComponentStorage},
      l.find? (fun a => a.check_type_id tid) = some s →
      getFirst l tid e = s.get e tid
  | [], s, h => by simp at h
  | a :: rest, s, h => by
      by_cases hc : a.check_type_id tid
      · rw [List.find?_cons_of_pos (p := fun x : ComponentStorage => x.check_type_id tid) _ hc] at h
        obtain rfl := Option.some.inj h
        simp only [getFirst]
        rw [if_pos hc]
      · rw [List.find?_cons_of_neg (p := fun x : ComponentStorage => x.check_type_id tid) _ hc] at h
        simp only [getFirst]
        rw [if_neg hc]
        exact getFirst_find? h

theorem get_component_absent {w : World} {tid : TypeId} {e : Entity}
    {s : ComponentStorage} (hw : Wf w) (he : e < w.entity_counter)
    (hfind : w.storage.find? (fun a => a.check_type_id tid) = some s)
    (hslot : s.components.getD e none = none) :
    w.get_component tid e = .ok none := by
  have hmem := List.mem_of_find?_eq_some hfind
  have he' : e < s.components.length := by
    rw [hw s hmem]
    exact he
  have hps : (fun x : ComponentStorage => x.check_type_id tid) s = true :=
    List.find?_some (p := fun x : ComponentStorage => x.check_type_id tid) hfind
  have hex : w.check_storage_exists tid = true :=
    List.any_eq_true.2 ⟨s, hmem, hps⟩
  have hnone : s.components[e] = none := by
    have h1 : s.components.getD e none = s.components[e] := by
      simp [List.getD_eq_getElem?_getD, List.getElem?_eq_getElem he']
    rw [h1] at hslot
    exact hslot
  have hget : s.get e tid = .ok none := by
    simp [ComponentStorage.get, he', hnone]
  simp [World.get_component, hex, getFirst_find? hfind, hget]

/-! Lemmas about mutation through `get_component_mut`. -/

theorem mutFirst_maps {tid : TypeId} {e : Entity} {d : Nat} :
    ∀ {l l' : List ComponentStorage}, mutFirst l tid e d = .ok l' →
      l'.map ComponentStorage.type_id = l.map ComponentStorage.type_id ∧
        l'.map (fun s => s.components.length) =
          l.map (fun s => s.components.length)
  | [], l', h => by
      simp only [mutFirst, Except.ok.injEq] at h
      subst h
      exact ⟨rfl, rfl⟩
  | s :: rest, l', h => by
      simp only [mutFirst] at h
      split at h
      · rcases bind_eq_ok.1 h with ⟨v, hv, hout⟩
        cases v with
        | some x =>
            simp only at hout
            have := Except.ok.inj hout
            subst this
            simp
        | none =>
            simp only at hout
            have := Except.ok.inj hout
            subst this
            exact ⟨rfl, rfl⟩
      · rcases bind_eq_ok.1 h with ⟨r1, hr1, hout⟩
        have := Except.ok.inj hout
        subst this
        obtain ⟨h1, h2⟩ := mutFirst_maps hr1
        simp [h1, h2]

theorem write_component_mut_wf {w w' : World} {e : Entity} {tid : TypeId}
    {d : Nat} (hw : Wf w) (h : w.write_component_mut e tid d = .ok w') :
    Wf w' := by
  unfold World.write_component_mut at h
  split at h
  · cases h
  · rcases bind_eq_ok.1 h with ⟨st, hst, hout⟩
    cases Except.ok.inj hout
    intro s hs
    exact length_of_maps (mutFirst_maps hst).2 hw s hs

/-! Pure characterizations of `has` / `has_component` on valid handles. -/

theorem has_eq_pure {s : ComponentStorage} {e : Entity} {tid : TypeId}
    (he : e < s.components.length) :
    s.has e tid = .ok (s.hasPure e tid) := by
  have hgd : s.components.getD e none = s.components.get ⟨e, he⟩ := by
    simp [List.getD_eq_getElem?_getD, List.getElem?_eq_getElem he]
  unfold ComponentStorage.has ComponentStorage.hasPure
  rw [dif_pos he, hgd]
  cases s.components.get ⟨e, he⟩ <;> rfl

theorem hasFirst_eq_pure {e : Entity} {tid : TypeId} :
    ∀ {l : List ComponentStorage}, (∀ s ∈ l, e < s.components.length) →
      hasFirst l e tid = .ok (l.any fun s => s.hasPure e tid)
  | [], _ => rfl
  | s :: rest, hb => by
      have hh := @has_eq_pure s e tid (hb s (List.mem_cons_self _ _))
      simp only [hasFirst, hh, ok_bind]
      by_cases hp : s.hasPure e tid
      · simp [hp]
      · simp [hp,
          hasFirst_eq_pure (fun a ha => hb a (List.mem_cons_of_mem _ ha))]

theorem has_component_eq_pure {w : World} {e : Entity} {tid : TypeId}
    (hw : Wf w) (he : e < w.entity_counter) :
    w.has_component e tid = .ok (w.hasComponentPure e tid) := by
  unfold World.has_component World.hasComponentPure
  exact hasFirst_eq_pure (fun s hs => by rw [hw s hs]; exact he)

/-! Pure characterization of the query loops on well-formed worlds. -/

theorem checkAll_eq_pure {w : World} {e : Entity} (hw : Wf w)
    (he : e < w.entity_counter) :
    ∀ tids : List TypeId,
      checkAll w e tids = .ok (tids.all fun tid => w.hasComponentPure e tid)
  | [] => rfl
  | tid :: rest => by
      simp only [checkAll, has_component_eq_pure hw he, ok_bind]
      by_cases hp : w.hasComponentPure e tid
      · simp [hp, checkAll_eq_pure hw he rest]
      · simp [hp]

theorem queryEntities_eq_filter {w : World} {tids : List TypeId} (hw : Wf w) :
    ∀ {es : List Entity}, (∀ e ∈ es, e < w.entity_counter) →
      queryEntities w tids es =
        .ok (es.filter fun e => tids.all fun tid => w.hasComponentPure e tid)
  | [], _ => rfl
  | e :: rest, hb => by
      have h1 := checkAll_eq_pure hw (hb e (List.mem_cons_self _ _)) tids
      have h2 :=
        @queryEntities_eq_filter w tids hw rest
          (fun a ha => hb a (List.mem_cons_of_mem _ ha))
      simp only [queryEntities, h1, ok_bind, h2]
      by_cases hp : (tids.all fun tid => w.hasComponentPure e tid)
      · simp [hp, List.filter_cons]
      · simp [hp, List.filter_cons]

theorem query_get_eq_filter {q : Query} {w : World} (hw : Wf w) :
    q.get w = .ok ((List.range w.entity_counter).filter
      fun e => q.components.all fun tid => w.hasComponentPure e tid) := by
  unfold Query.get World.get_entity_count
  exact queryEntities_eq_filter hw (fun e he => List.mem_range.1 he)

/-! Shape lemmas for the system-registry operations and the tick. -/

theorem add_system_shape {w w' : World} {s : Sys}
    (h : w.add_system s = .ok w') : w'.toWorldData = w.toWorldData := by
  unfold World.add_system at h
  split at h
  · cases h
  · rcases bind_eq_ok.1 h with ⟨c', hc', hout⟩
    cases Except.ok.inj hout
    rfl

theorem remove_system_shape {w w' : World} {tid : TypeId}
    (h : w.remove_system tid = .ok w') : w'.toWorldData = w.toWorldData := by
  unfold World.remove_system at h
  split at h
  · cases h
  · rcases bind_eq_ok.1 h with ⟨c', hc', hout⟩
    cases Except.ok.inj hout
    rfl

theorem update_shape {w w' : World} (h : w.update = .ok w') :
    ∃ c, w.systems_controller = some c ∧
      c.update w.toWorldData = .ok w'.toWorldData ∧
      w'.systems_controller = some c := by
  unfold World.update at h
  split at h
  · cases h
  next c heq =>
    rcases bind_eq_ok.1 h with ⟨d, hd, hout⟩
    cases Except.ok.inj hout
    exact ⟨c, heq, hd, rfl⟩

theorem runSystems_wf :
    ∀ {ss : List Sys} {d d' : WorldData},
      (∀ s ∈ ss, ∀ a b, WfData a → s.run a = .ok b → WfData b) →
      WfData d → runSystems ss d = .ok d' → WfData d'
  | [], d, d', _, hd, h => by
      obtain rfl := Except.ok.inj h
      exact hd
  | s :: rest, d, d', hs, hd, h => by
      simp only [runSystems] at h
      rcases bind_eq_ok.1 h with ⟨d1, hd1, hrest⟩
      exact runSystems_wf (fun a ha => hs a (List.mem_cons_of_mem _ ha))
        (hs s (List.mem_cons_self _ _) d d1 hd hd1) hrest

theorem foldlM_add_wf {e : Entity} {tid : TypeId} :
    ∀ {ds : List Nat} {w w' : World}, Wf w →
      ds.foldlM (fun wa d => wa.add_component e tid d) w = .ok w' → Wf w'
  | [], w, w', hw, h => by
      obtain rfl := Except.ok.inj h
      exact hw
  | d :: rest, w, w', hw, h => by
      simp only [List.foldlM_cons] at h
      rcases bind_eq_ok.1 h with ⟨w1, hw1, hrest⟩
      exact foldlM_add_wf (add_component_wf hw hw1) hrest

theorem create_with_wf {w w' : World} {e : Entity} {tid : TypeId}
    {ds : List Nat} (hw : Wf w)
    (h : w.create_entity_with_components tid ds = .ok (e, w')) : Wf w' := by
  unfold World.create_entity_with_components at h
  rcases bind_eq_ok.1 h with ⟨w2, hfold, hout⟩
  have hpair := Except.ok.inj hout
  injection hpair with h1 h2
  subst h2
  exact foldlM_add_wf (create_entity_wf hw) hfold

/-- Every world reachable through the public API keeps all columns in
lockstep with the entity counter. -/
theorem reachable_wf : ∀ {w : World}, Reachable w → Wf w := by
  intro w h
  induction h with
  | new =>
      intro s hs
      simp [World.new] at hs
  | create_entity _ ih => exact create_entity_wf ih
  | create_entity_with_components _ hop ih => exact create_with_wf ih hop
  | add_component _ hop ih => exact add_component_wf ih hop
  | set_component _ hop ih => exact set_component_wf ih hop
  | init_storage _ hop ih => exact init_storage_wf ih hop
  | write_component_mut _ hop ih => exact write_component_mut_wf ih hop
  | add_system _ hop ih =>
      have hd := add_system_shape hop
      unfold Wf
      rw [hd]
      exact ih
  | remove_system _ hop ih =>
      have hd := remove_system_shape hop
      unfold Wf
      rw [hd]
      exact ih
  | update _ hsys hop ih =>
      obtain ⟨c, hc, hrun, -⟩ := update_shape hop
      exact runSystems_wf (hsys c hc) ih hrun

/-! Reachability of the concrete witness worlds. -/

theorem reach_wA : Reachable wA :=
  Reachable.create_entity Reachable.new

theorem reach_w03 : Reachable w03 :=
  Reachable.init_storage Reachable.new rfl

theorem reach_wC : Reachable wC :=
  Reachable.create_entity reach_w03

theorem reach_wB : Reachable wB :=
  @Reachable.add_component wA 0 3 5 wB reach_wA rfl

/-! Counting lemmas for iterated entity creation. -/

theorem createN_counter : ∀ n : Nat, (createN n).entity_counter = n
  | 0 => rfl
  | n + 1 => by simp [createN, createN_counter n]

theorem createHandles_eq : ∀ n : Nat, createHandles n = List.range n
  | 0 => rfl
  | n + 1 => by
      simp [createHandles, createHandles_eq n, createN_counter n,
        List.range_succ]

/-! The out-of-range branch is never taken on an in-bounds index. -/

theorem get_ne_outOfRange {s : ComponentStorage} {e : Entity} {tid : TypeId}
    (hlt : e < s.components.length) :
    s.get e tid ≠ .error .outOfRange := by
  unfold ComponentStorage.get
  rw [dif_pos hlt]
  rcases hsl : s.components.get ⟨e, hlt⟩ with - | c
  · simp [hsl]
  · by_cases hc : c.tid == tid <;> simp [hc]

theorem get_mut_ne_outOfRange {s : ComponentStorage} {e : Entity}
    {tid : TypeId} (hlt : e < s.components.length) :
    s.get_mut e tid ≠ .error .outOfRange := by
  unfold ComponentStorage.get_mut
  rw [dif_pos hlt]
  rcases hsl : s.components.get ⟨e, hlt⟩ with - | c
  · simp [hsl]
  · by_cases hc : c.tid == tid <;> simp [hc]

theorem set_ne_outOfRange {s : ComponentStorage} {e : Entity} {c : CompVal}
    (hlt : e < s.components.length) :
    s.set e c ≠ .error .outOfRange := by
  unfold ComponentStorage.set
  rw [if_pos hlt]
  simp

theorem has_ne_outOfRange {s : ComponentStorage} {e : Entity} {tid : TypeId}
    (hlt : e < s.components.length) :
    s.has e tid ≠ .error .outOfRange := by
  unfold ComponentStorage.has
  rw [dif_pos hlt]
  rcases hsl : s.components.get ⟨e, hlt⟩ with - | c <;> simp [hsl]

/-! Success and frame properties of attaching a list of components. -/

theorem foldlM_add_props {e : Entity} {tid : TypeId} :
    ∀ {ds : List Nat} {w : World}, Wf w → e < w.entity_counter →
      ∃ w', ds.foldlM (fun wa d => wa.add_component e tid d) w = .ok w' ∧
        Wf w' ∧ w'.entity_counter = w.entity_counter ∧
        w'.systems_controller = w.systems_controller
  | [], w, hw, _ => ⟨w, rfl, hw, rfl, rfl⟩
  | d :: rest, w, hw, he => by
      obtain ⟨w1, h1, hwf1, hc1, hs1, -⟩ := add_component_ok hw he
      obtain ⟨w2, h2, hwf2, hc2, hs2⟩ :=
        @foldlM_add_props e tid rest w1 hwf1 (by rw [hc1]; exact he)
      refine ⟨w2, ?_, hwf2, by rw [hc2, hc1], by rw [hs2, hs1]⟩
      rw [List.foldlM_cons, h1, ok_bind]
      exact h2

/-! ### The claims -/

/-- C1.  For every world reachable through the public operations, every
registered column has exactly `entity_counter` slots; `create_entity` appends
one absent slot to every existing column and increments the counter by one;
`init_storage` (invoked eagerly or lazily from `add_component`) pushes a
column backfilled with exactly `entity_counter` absent slots. -/
theorem claim_C1_column_lockstep (w : World) (hw : Reachable w)
    (s : ComponentStorage) (hs : s ∈ w.storage) (tid : TypeId)
    (hmiss : w.check_storage_exists tid = false) :
    s.components.length = w.entity_counter ∧
      ((w.create_entity).2.storage =
          w.storage.map (fun a => { a with components := a.components ++ [none] }) ∧
        (w.create_entity).2.entity_counter = w.entity_counter + 1) ∧
      w.init_storage tid = .ok { w with storage := w.storage ++
        [{ components := List.replicate w.entity_counter none,
           type_id := tid }] } :=
  ⟨reachable_wf hw s hs, ⟨rfl, rfl⟩, init_storage_eq hmiss⟩

/-- Witness for C1 at a concrete reachable world (one entity, one column of
type id 3, about to register type id 9). -/
theorem claim_C1_witness :
    (⟨[none], 3⟩ : ComponentStorage).components.length = wC.entity_counter :=
  (claim_C1_column_lockstep wC reach_wC ⟨[none], 3⟩ (by decide) 9
    (by decide)).1

/-- C2 as stated is false: on a world with one entity (handle `0 <
entity_counter`) and no column for type id 7, the entity was never given a
value of type 7, yet `get_component` panics with "Error: Storage does not
exist" instead of yielding `None`. -/
theorem claim_C2_counterexample :
    0 < wA.entity_counter ∧
      wA.get_component 7 0 = Except.error Panic.storageMissing ∧
      wA.get_component 7 0 ≠ Except.ok none := by
  refine ⟨by decide, rfl, ?_⟩
  rw [show wA.get_component 7 0 = Except.error Panic.storageMissing from rfl]
  exact fun h => Except.noConfusion h

/-- C2 (amended).  For a valid entity `e < entity_counter` on a well-formed
world: `add_component(e, v)` then `get_component::<C>(e)` yields exactly `v`;
when a column for `C` is registered (it is the first column matching the type
id) and the slot at `e` is absent, `get_component` yields the absent outcome
`None`, not an error; when no column for `C` is registered at all,
`get_component` aborts with the missing-storage panic. -/
theorem claim_C2_add_get_roundtrip :
    (∀ (w : World) (e : Entity) (tid : TypeId) (d : Nat), Wf w →
        e < w.entity_counter →
        (w.add_component e tid d >>= fun w2 => w2.get_component tid e) =
          .ok (some d)) ∧
      (∀ (w : World) (e : Entity) (tid : TypeId) (s : ComponentStorage),
        Wf w → e < w.entity_counter →
        w.storage.find? (fun a : ComponentStorage => a.check_type_id tid) =
          some s →
        s.components.getD e none = none →
        w.get_component tid e = .ok none) ∧
      (∀ (w : World) (e : Entity) (tid : TypeId),
        w.check_storage_exists tid = false →
        w.get_component tid e = .error .storageMissing) := by
  refine ⟨?_, ?_, ?_⟩
  · intro w e tid d hw he
    obtain ⟨w', h1, -, -, -, h5⟩ := add_component_ok hw he
    rw [h1, ok_bind]
    exact h5
  · exact fun w e tid s hw he hf hs => get_component_absent hw he hf hs
  · exact fun w e tid h => get_component_missing h

/-- Witness for C2 (amended): attach payload 5 of type id 3 to entity 0 and
read it back; read the absent slot of a registered column; read a type with
no registered column. -/
theorem claim_C2_witness :
    (wA.add_component 0 3 5 >>= fun w2 => w2.get_component 3 0) =
        .ok (some 5) ∧
      wC.get_component 3 0 = .ok none ∧
      wA.get_component 9 0 = .error .storageMissing :=
  ⟨claim_C2_add_get_roundtrip.1 wA 0 3 5 (by decide) (by decide),
   claim_C2_add_get_roundtrip.2.1 wC 0 3 ⟨[none], 3⟩ (by decide) (by decide)
     (by decide) (by decide),
   claim_C2_add_get_roundtrip.2.2 wA 0 9 rfl⟩

/-- C3 as stated is false: registering the same column type twice does not
return a recoverable error value to the caller — it aborts.  The source has
no `Result` return; the modelled outcome is the `panic!` "Error: Storage
already exists" (the `Panic.storageExists` abort). -/
theorem claim_C3_counterexample :
    ((World.new.init_storage 3) >>= fun w => w.init_storage 3) =
      Except.error Panic.storageExists := rfl

/-- C3 (amended).  Each of the four caller-triggerable conditions is detected
and makes the operation abort with its own distinct panic (not a recoverable
result): duplicate `init_storage` panics "Error: Storage already exists";
`get_component` / `get_component_mut` / `set_component` on an unregistered
type panic "Error: Storage does not exist"; duplicate `add_system` panics
"System already exists"; `remove_system` of an unregistered system panics
"System does not exist". -/
theorem claim_C3_panics :
    (∀ (w : World) (tid : TypeId), w.check_storage_exists tid = true →
        w.init_storage tid = .error .storageExists) ∧
      (∀ (w : World) (tid : TypeId) (e : Entity) (d : Nat),
        w.check_storage_exists tid = false →
        w.get_component tid e = .error .storageMissing ∧
          w.get_component_mut tid e = .error .storageMissing ∧
          w.set_component e tid d = .error .storageMissing) ∧
      (∀ (w : World) (c : SystemController) (s : Sys),
        w.systems_controller = some c → c.has_system s.tid = true →
        w.add_system s = .error .systemExists) ∧
      (∀ (w : World) (c : SystemController) (tid : TypeId),
        w.systems_controller = some c → c.has_system tid = false →
        w.remove_system tid = .error .systemMissing) := by
  refine ⟨fun w tid h => init_storage_dup h, ?_, ?_, ?_⟩
  · exact fun w tid e d h =>
      ⟨get_component_missing h, get_component_mut_missing h,
        set_component_missing h⟩
  · intro w c s hc hs
    unfold World.add_system
    rw [hc]
    simp [SystemController.add_system, hs]
  · intro w c tid hc hs
    unfold World.remove_system
    rw [hc]
    simp [SystemController.remove_system, hs]

/-- Witness for C3 (amended): all four conditions triggered on concrete
worlds. -/
theorem claim_C3_witness :
    w03.init_storage 3 = .error .storageExists ∧
      wA.set_component 0 9 5 = .error .storageMissing ∧
      wS.add_system sysNoop = .error .systemExists ∧
      wC.remove_system 9 = .error .systemMissing :=
  ⟨claim_C3_panics.1 w03 3 rfl,
   (claim_C3_panics.2.1 wA 9 0 5 rfl).2.2,
   claim_C3_panics.2.2.1 wS ⟨[sysNoop]⟩ sysNoop rfl rfl,
   claim_C3_panics.2.2.2 wC ⟨[]⟩ 9 rfl rfl⟩

/-- C4.  On a well-formed world, `Query::get` returns exactly the entity
handles in `0..entity_counter`, in ascending order, that carry every required
type key in the sense of `World::has_component` (whose pure value on valid
handles is `hasComponentPure`, third conjunct).  The second conjunct states
the ascending order of the returned list. -/
theorem claim_C4_query_matches (q : Query) (w : World) (hw : Wf w)
    (e : Entity) (tid : TypeId) (he : e < w.entity_counter) :
    q.get w = .ok ((List.range w.get_entity_count).filter
        (fun a => q.components.all fun t => w.hasComponentPure a t)) ∧
      ((List.range w.get_entity_count).filter
        (fun a => q.components.all fun t => w.hasComponentPure a t)).Pairwise
        (· < ·) ∧
      w.has_component e tid = .ok (w.hasComponentPure e tid) :=
  ⟨query_get_eq_filter hw,
   List.Pairwise.filter _ (List.pairwise_lt_range _),
   has_component_eq_pure hw he⟩

/-- Witness for C4: a query requiring type id 3 on the one-entity world whose
entity carries a payload of type id 3. -/
theorem claim_C4_witness :
    (Query.new.add 3).get wB =
        .ok ((List.range wB.get_entity_count).filter
          (fun a => (Query.new.add 3).components.all
            fun t => wB.hasComponentPure a t)) ∧
      wB.has_component 0 3 = .ok (wB.hasComponentPure 0 3) := by
  have h := claim_C4_query_matches (Query.new.add 3) wB (by decide) 0 3
    (by decide)
  exact ⟨h.1, h.2.2⟩

/-- C5.  The handles of `n` successive `create_entity` calls on a fresh world
are `0, 1, …, n-1` (ascending, unique, starting at 0), the entity count
always equals the number of entities created, and the next handle equals the
count. -/
theorem claim_C5_handles (n : Nat) :
    createHandles n = List.range n ∧
      (createN n).get_entity_count = n ∧
      ((createN n).create_entity).1 = n :=
  ⟨createHandles_eq n, createN_counter n, createN_counter n⟩

/-- C6.  On any world reachable through the public API and any valid handle
`e < entity_counter`, no column operation (`get`, `get_mut`, `set`, `has`)
can take its out-of-range branch: every registered column is long enough. -/
theorem claim_C6_no_out_of_range (w : World) (hw : Reachable w) (e : Entity)
    (he : e < w.entity_counter) (s : ComponentStorage) (hs : s ∈ w.storage)
    (tid : TypeId) (c : CompVal) :
    s.get e tid ≠ .error .outOfRange ∧
      s.get_mut e tid ≠ .error .outOfRange ∧
      s.set e c ≠ .error .outOfRange ∧
      s.has e tid ≠ .error .outOfRange := by
  have hlt : e < s.components.length := by
    rw [reachable_wf hw s hs]
    exact he
  exact ⟨get_ne_outOfRange hlt, get_mut_ne_outOfRange hlt,
    set_ne_outOfRange hlt, has_ne_outOfRange hlt⟩

/-- Witness for C6 at the reachable one-entity world `wB`. -/
theorem claim_C6_witness :
    (⟨[some ⟨3, 5⟩], 3⟩ : ComponentStorage).get 0 3 ≠
        Except.error Panic.outOfRange ∧
      (⟨[some ⟨3, 5⟩], 3⟩ : ComponentStorage).get_mut 0 3 ≠
        Except.error Panic.outOfRange ∧
      (⟨[some ⟨3, 5⟩], 3⟩ : ComponentStorage).set 0 ⟨3, 7⟩ ≠
        Except.error Panic.outOfRange ∧
      (⟨[some ⟨3, 5⟩], 3⟩ : ComponentStorage).has 0 3 ≠
        Except.error Panic.outOfRange :=
  claim_C6_no_out_of_range wB reach_wB 0 (by decide) ⟨[some ⟨3, 5⟩], 3⟩
    (by decide) 3 ⟨3, 7⟩

/-- C8.  Query matching narrows monotonically: when every type key required
by `q1` is also required by `q2`, every entity returned for `q2` is also
returned for `q1`. -/
theorem claim_C8_monotonic (q1 q2 : Query) (w : World)
    (L1 L2 : List Entity) (hw : Wf w)
    (hsub : ∀ t ∈ q1.components, t ∈ q2.components)
    (h1 : q1.get w = .ok L1) (h2 : q2.get w = .ok L2) (e : Entity)
    (he : e ∈ L2) : e ∈ L1 := by
  rw [query_get_eq_filter hw] at h1 h2
  obtain rfl := (Except.ok.inj h1).symm
  obtain rfl := (Except.ok.inj h2).symm
  rcases List.mem_filter.1 he with ⟨hrange, hall2⟩
  refine List.mem_filter.2 ⟨hrange, ?_⟩
  simp only [List.all_eq_true] at hall2 ⊢
  exact fun t ht => hall2 t (hsub t ht)

/-- Witness for C8: the empty requirement set versus the requirement
`{3}` on the one-entity world `wB`; entity 0 matches both. -/
theorem claim_C8_witness : (0 : Entity) ∈ ([0] : List Entity) :=
  claim_C8_monotonic Query.new (Query.new.add 3) wB [0] [0] (by decide)
    (by intro t ht; cases ht) rfl rfl 0 (by decide)

/-- C9.  `create_entity_with_components` is exactly `create_entity` followed
by one `add_component` per given value (first conjunct); it returns the same
handle a bare `create_entity` would return, namely the old counter (second
conjunct), and increments the counter by exactly one (third conjunct). -/
theorem claim_C9_create_with_components (w : World) (tid : TypeId)
    (ds : List Nat) (hw : Wf w) :
    w.create_entity_with_components tid ds =
        (ds.foldlM (fun (wa : World) d => wa.add_component (w.create_entity).1 tid d)
            (w.create_entity).2).map (fun w2 => ((w.create_entity).1, w2)) ∧
      (w.create_entity_with_components tid ds).map Prod.fst =
        .ok w.entity_counter ∧
      (w.create_entity_with_components tid ds).map
          (fun p => p.2.entity_counter) = .ok (w.entity_counter + 1) := by
  have he : (w.create_entity).1 < (w.create_entity).2.entity_counter := by
    simp
  obtain ⟨w2, hfold, -, hcnt, -⟩ :=
    @foldlM_add_props (w.create_entity).1 tid ds (w.create_entity).2
      (create_entity_wf hw) he
  have hmain : w.create_entity_with_components tid ds =
      .ok ((w.create_entity).1, w2) := by
    show (ds.foldlM (fun wa d => wa.add_component (w.create_entity).1 tid d)
        (w.create_entity).2 >>=
      fun w' => Except.ok ((w.create_entity).1, w')) = _
    rw [hfold, ok_bind]
  refine ⟨?_, ?_, ?_⟩
  · show (ds.foldlM (fun wa d => wa.add_component (w.create_entity).1 tid d)
        (w.create_entity).2 >>=
      fun w' => Except.ok ((w.create_entity).1, w')) = _
    rw [hfold, ok_bind]
    rfl
  · rw [hmain]
    rfl
  · rw [hmain]
    show Except.ok w2.entity_counter = Except.ok (w.entity_counter + 1)
    rw [hcnt]
    rfl

/-- Witness for C9: attaching two payloads of type id 3 while creating an
entity on the one-entity world `wA`. -/
theorem claim_C9_witness :
    (wA.create_entity_with_components 3 [5, 6]).map Prod.fst =
        .ok wA.entity_counter ∧
      (wA.create_entity_with_components 3 [5, 6]).map
          (fun p => p.2.entity_counter) = .ok (wA.entity_counter + 1) := by
  have h := claim_C9_create_with_components wA 3 [5, 6] (by decide)
  exact ⟨h.2.1, h.2.2⟩

/-- C10.  One tick takes the controller out of the world, runs it over the
world's data, and restores the very same controller before returning: a
completed `World::update` yields a world holding exactly the registered
systems it started with, in the same order (second conjunct lists their type
keys), so subsequent `add_system` / `remove_system` / `update` calls see the
registry unchanged by the tick. -/
theorem claim_C10_update_restores_controller (w : World)
    (c : SystemController) (d : WorldData)
    (hc : w.systems_controller = some c)
    (hd : c.update w.toWorldData = .ok d) :
    w.update = .ok { toWorldData := d, systems_controller := some c } ∧
      (w.update).map (fun w2 => w2.systems_controller.map
        (fun k => k.systems.map Sys.tid)) =
        .ok (some (c.systems.map Sys.tid)) := by
  have h1 : w.update = .ok { toWorldData := d, systems_controller := some c } := by
    unfold World.update
    rw [hc]
    show (c.update w.toWorldData >>= fun d0 =>
        Except.ok ({ toWorldData := d0, systems_controller := some c } : World)) =
      Except.ok { toWorldData := d, systems_controller := some c }
    rw [hd, ok_bind]
  refine ⟨h1, ?_⟩
  rw [h1]
  rfl

/-- Witness for C10: one tick of the empty world with the do-nothing system
`sysNoop` (type key 5) registered. -/
theorem claim_C10_witness :
    wS.update = .ok wS ∧
      (wS.update).map (fun w2 => w2.systems_controller.map
        (fun k => k.systems.map Sys.tid)) = .ok (some [5]) :=
  claim_C10_update_restores_controller wS ⟨[sysNoop]⟩ ⟨[], 0⟩ rfl rfl

end RustECS
